import Mathlib

/-
Verification development for the mISDN CMX audio conferencing engine
(drivers dsp_cmx.c, rev 1.1 2003/10/24) and its DTMF decoder (dsp_dtmf.c).
The C sources are shallowly embedded below: ring indices are naturals reduced
mod CMX_BUFF_SIZE, the companding tables are abstract parameters, and the
audio buffers are functions from indices to byte / sample values.
-/

/-- Modelled from the spec: CMX_BUFF_SIZE, CMX_BUFF_HALF and CMX_BUFF_MASK are
configuration constants from dsp.h, which is not part of the sources; the spec
only requires a power of two at least four times the largest frame. We fix
BUFF_SIZE = 1024 (spec scenario 5 uses BUFF_HALF / 4 = 128). All C expressions
`x & CMX_BUFF_MASK` are rendered as `x % CMX_BUFF_SIZE`. -/
def CMX_BUFF_SIZE : Nat := 1024

/-- Half of the ring buffer, the before/after discriminator for modular
pointer comparisons. -/
def CMX_BUFF_HALF : Nat := 512

/-- Two's-complement subtraction followed by masking, `(a - b) & CMX_BUFF_MASK`
in the C source (the sources compute this on ints, so the difference may be
negative before masking). -/
def cmxSub (a b : Nat) : Nat :=
  (a + (CMX_BUFF_SIZE - b % CMX_BUFF_SIZE)) % CMX_BUFF_SIZE

/-! ## Receive path: dsp_cmx_receive (dsp_cmx.c lines 725-847) -/

/-- The fields of dsp_t that dsp_cmx_receive reads and writes. -/
structure RxDsp where
  W_rx : Nat
  largest : Nat
  rx_buff : Nat → Nat

/-- The fields of conference_t that dsp_cmx_receive touches. `othersWrx` lists
the W_rx pointers of the conference members other than the receiving dsp, in
member-list order (the loop at lines 769-776 skips `dsp->member`).
`confsAfter` is the number of conferences following this one in the global
registry chain Conf_list: the source tests `conf->next` and
`conf->next->next` (line 817), which walk the registry chain, not the member
list. -/
structure RxConf where
  W_min : Nat
  W_max : Nat
  largest : Nat
  conf_buff : Nat → Int
  othersWrx : List Nat
  confsAfter : Nat

/-- Lines 769-776: fold the candidate W_min over the other members, replacing
it whenever a member write pointer is behind it in modular order. -/
def recvWminFold (cand : Nat) (others : List Nat) : Nat :=
  others.foldl (fun wm w => if CMX_BUFF_HALF ≤ cmxSub w wm then w else wm) cand

/-- Lines 812-815: `d[w++ & CMX_BUFF_MASK] = *p++` starting at w = dsp->W_rx;
w is incremented unmasked and masked at each use. -/
def writeRx (buf : Nat → Nat) (w : Nat) : List Nat → (Nat → Nat)
  | [] => buf
  | b :: bs =>
      writeRx (fun x => if x = w % CMX_BUFF_SIZE then b else buf x) (w + 1) bs

/-- Lines 826-831: add decoded samples into the conference buffer until the
old W_max (ww) is reached or the frame is exhausted; returns the new buffer,
the final write index, and the unconsumed rest of the frame. -/
def confMixPhase (dec : Nat → Int) (ww : Nat) :
    (Nat → Int) → Nat → List Nat → (Nat → Int) × Nat × List Nat
  | buf, w, [] => (buf, w, [])
  | buf, w, b :: bs =>
      if w = ww then (buf, w, b :: bs)
      else
        confMixPhase dec ww (fun x => if x = w then buf x + dec b else buf x)
          ((w + 1) % CMX_BUFF_SIZE) bs

/-- Lines 832-837: plainly assign the remaining decoded samples, overwriting
the stale ring contents beyond the old W_max. -/
def confAssignPhase (dec : Nat → Int) :
    (Nat → Int) → Nat → List Nat → (Nat → Int)
  | buf, _, [] => buf
  | buf, w, b :: bs =>
      confAssignPhase dec (fun x => if x = w then dec b else buf x)
        ((w + 1) % CMX_BUFF_SIZE) bs

/-- Lines 753-846 of dsp_cmx_receive: everything after the length checks.
`dsp.largest` has already been raised to 2*len by the caller (lines 744-745
precede this part). -/
def recvProcess (dec : Nat → Int) (dsp : RxDsp) (conf : Option RxConf)
    (data : List Nat) : RxDsp × Option RxConf :=
  let len := data.length
  match conf with
  | none =>
      -- line 761; the conference branches at 762-792 are skipped
      let W_min := (dsp.W_rx + len) % CMX_BUFF_SIZE
      let W_max := W_min
      -- line 805: the overflow guard (trivially satisfied when alone)
      if cmxSub W_max W_min ≤ dsp.largest then
        ({ dsp with
            rx_buff := writeRx dsp.rx_buff dsp.W_rx data,
            W_rx := (dsp.W_rx + len) % CMX_BUFF_SIZE }, none)
      else (dsp, none)
  | some cf =>
      -- lines 764-767: conference and dsp agree on the larger `largest`
      let cl := max cf.largest dsp.largest
      -- lines 761, 769-778: new W_min, stored into the conference at once
      let W_min := recvWminFold ((dsp.W_rx + len) % CMX_BUFF_SIZE) cf.othersWrx
      let cf1 := { cf with largest := cl, W_min := W_min }
      -- lines 783-792: W_max is the later of W_min and the old conf->W_max
      let W_max := if CMX_BUFF_HALF ≤ cmxSub W_min cf.W_max then cf.W_max else W_min
      -- line 805: the overflow guard against dsp->largest (= cl here)
      if cmxSub W_max W_min ≤ cl then
        let rxb := writeRx dsp.rx_buff dsp.W_rx data
        -- line 817: `if (conf) if (conf->next) if (conf->next->next)` -- the
        -- guard walks the registry chain Conf_list, not the member list
        let cbuf :=
          if 2 ≤ cf.confsAfter then
            let ph := confMixPhase dec cf.W_max cf.conf_buff
                (dsp.W_rx % CMX_BUFF_SIZE) data
            confAssignPhase dec ph.1 ph.2.1 ph.2.2
          else cf.conf_buff
        ({ dsp with
            largest := cl,
            rx_buff := rxb,
            W_rx := (dsp.W_rx + len) % CMX_BUFF_SIZE },
         some { cf1 with conf_buff := cbuf, W_max := W_max })
      else
        ({ dsp with largest := cl }, some cf1)

/-- dsp_cmx_receive, lines 725-847. `dec` is the channel's law table
(dsp_audio_ulaw_to_s32 / dsp_audio_alaw_to_s32, external read-only data).
The received frame is the byte list `data` (skb->data, skb->len). -/
def dsp_cmx_receive (dec : Nat → Int) (dsp : RxDsp) (conf : Option RxConf)
    (data : List Nat) : RxDsp × Option RxConf :=
  -- lines 740-741: reject the empty frame
  if data.length < 1 then (dsp, conf)
  else
    -- lines 744-745: largest is raised to twice the frame length first ...
    let dsp1 := { dsp with
      largest := if dsp.largest < 2 * data.length then 2 * data.length
                 else dsp.largest }
    -- lines 748-751: ... and only then is the oversize frame dropped
    if CMX_BUFF_HALF / 4 ≤ data.length then (dsp1, conf)
    else recvProcess dec dsp1 conf data

/-! ## Send path: dsp_cmx_send (dsp_cmx.c lines 853-1077) -/

/-- Saturation of a mixed linear sample to signed 16 bit
(the repeated `if (sample < -32768) ... else if (sample > 32767)` blocks). -/
def saturate (s : Int) : Int :=
  if s < -32768 then -32768 else if 32767 < s then 32767 else s

/-- Encoding of a saturated sample: `encode_law[sample & 0xffff]`; the masking
of the possibly negative sample is two's complement, i.e. Int.emod by 65536. -/
def encodeSample (enc : Nat → Nat) (s : Int) : Nat :=
  enc ((saturate s % 65536).toNat)

/-- One output byte per step while both the rx range and the tx range run:
the loops `while(r!=rr && t!=tt)`, which advance r and t together; `f` is the
per-step byte in terms of the current (masked) r and t indices. -/
def loopRT (f : Nat → Nat → Nat) (r t k : Nat) : List Nat :=
  (List.range k).map
    (fun i => f ((r + i) % CMX_BUFF_SIZE) ((t + i) % CMX_BUFF_SIZE))

/-- One output byte per step while only the rx range runs: the trailing
`while(r != rr)` loops. -/
def loopR (g : Nat → Nat) (r k : Nat) : List Nat :=
  (List.range k).map (fun i => g ((r + i) % CMX_BUFF_SIZE))

/-- The shape of dsp->conf as dsp_cmx_send sees it: no conference
(line 929), a conference with a single member (line 965, `goto single`),
exactly two members (line 971) or three and more (line 1028). For a pair the
peer's rx ring and law table are carried; for a group the conference mix
buffer is. Each conference carries its W_min (line 890). -/
inductive ConfView where
  | noConf
  | single (wmin : Nat)
  | pair (wmin : Nat) (orx : Nat → Nat) (odec : Nat → Int)
  | group (wmin : Nat) (cbuf : Nat → Int)

/-- The read limit rr of lines 888-892: conf->W_min inside a conference,
dsp->W_rx otherwise. -/
def sendLimit (wrx : Nat) : ConfView → Nat
  | .noConf => wrx
  | .single w => w
  | .pair w _ _ => w
  | .group w _ => w

/-- The fields of dsp_t that dsp_cmx_send reads and writes. -/
structure SendDsp where
  R_rx : Nat
  W_rx : Nat
  R_tx : Nat
  W_tx : Nat
  tx_buff : Nat → Nat
  rx_buff : Nat → Nat
  echo : Bool
  tx_mix : Bool
  tone : Bool

/-- Steps 2.1-2.3 of dsp_cmx_send (lines 927-1076): the mixing branches that
run after the tone test and the optional tx drain, producing the remaining
output bytes and the final t index (stored into dsp->R_tx).
`p`/`q` are the channel's tx and rx rings, `dec`/`enc` its law tables,
`sil` its silence byte. -/
def sendMix (dec : Nat → Int) (enc : Nat → Nat) (sil : Nat) (dsp : SendDsp)
    (cv : ConfView) (r rr t tt : Nat) : List Nat × Nat :=
  let p := dsp.tx_buff
  let q := dsp.rx_buff
  let n := cmxSub rr r
  let k := min n (cmxSub tt t)
  match cv with
  | .noConf | .single _ =>
      -- STEP 2.1, lines 931-963 (also reached by the two goto single)
      if dsp.echo then
        -- lines 946-960: tx-data mixed with the own echo, then echo alone
        (loopRT (fun ri ti => encodeSample enc (dec (p ti) + dec (q ri))) r t k
           ++ loopR (fun ri => q ri) ((r + k) % CMX_BUFF_SIZE) (n - k),
         (t + k) % CMX_BUFF_SIZE)
      else
        -- lines 934-941: tx-data verbatim, then silence (memset with zero)
        (loopRT (fun _ ti => p ti) r t k
           ++ loopR (fun _ => sil) ((r + k) % CMX_BUFF_SIZE) (n - k),
         (t + k) % CMX_BUFF_SIZE)
  | .pair _ orx odec =>
      -- STEP 2.2, lines 971-1025; the peer is decoded with its own law table
      if dsp.echo then
        -- lines 1002-1021
        (loopRT (fun ri ti =>
             encodeSample enc (dec (p ti) + odec (orx ri) + dec (q ri))) r t k
           ++ loopR (fun ri => encodeSample enc (odec (orx ri) + dec (q ri)))
               ((r + k) % CMX_BUFF_SIZE) (n - k),
         (t + k) % CMX_BUFF_SIZE)
      else
        -- lines 984-997; the tail emits the peer bytes verbatim
        (loopRT (fun ri ti => encodeSample enc (dec (p ti) + odec (orx ri))) r t k
           ++ loopR (fun ri => orx ri) ((r + k) % CMX_BUFF_SIZE) (n - k),
         (t + k) % CMX_BUFF_SIZE)
  | .group _ cbuf =>
      -- STEP 2.3, lines 1029-1075
      if dsp.echo then
        -- lines 1055-1073: conference data, with tx mixed in while available
        (loopRT (fun ri ti => encodeSample enc (dec (p ti) + cbuf ri)) r t k
           ++ loopR (fun ri => encodeSample enc (cbuf ri))
               ((r + k) % CMX_BUFF_SIZE) (n - k),
         (t + k) % CMX_BUFF_SIZE)
      else
        -- lines 1033-1051: own rx is subtracted from the conference data
        (loopRT (fun ri ti => encodeSample enc (dec (p ti) + cbuf ri - dec (q ri)))
             r t k
           ++ loopR (fun ri => encodeSample enc (cbuf ri - dec (q ri)))
               ((r + k) % CMX_BUFF_SIZE) (n - k),
         (t + k) % CMX_BUFF_SIZE)

/-- Lines 893-899: the actual read range. If reading len bytes starting at r
(= R_rx) would overrun rr (= the read limit), r is clamped to len bytes
before the limit; otherwise rr is moved to len bytes past r. Returns the
pair (r, rr); afterwards rr is exactly len bytes behind r in modular order. -/
def sendRange (r0 rr0 len : Nat) : Nat × Nat :=
  if CMX_BUFF_HALF ≤ cmxSub rr0 (r0 + len) then (cmxSub rr0 len, rr0)
  else (r0, (r0 + len) % CMX_BUFF_SIZE)

/-- Lines 907-1076 of dsp_cmx_send without the tone branch: the optional tx
drain (lines 915-926) followed by the mixing branches; returns the output
bytes and the final t index (stored into dsp->R_tx). -/
def sendBody (dec : Nat → Int) (enc : Nat → Nat) (sil : Nat) (dsp : SendDsp)
    (cv : ConfView) (r rr : Nat) : List Nat × Nat :=
  let t := dsp.R_tx
  let tt := dsp.W_tx
  -- lines 915-926: drain tx data verbatim when mixing is not requested
  if dsp.tx_mix = false ∧ t ≠ tt then
    let k := min (cmxSub rr r) (cmxSub tt t)
    let out1 := loopRT (fun _ ti => dsp.tx_buff ti) r t k
    let r1 := (r + k) % CMX_BUFF_SIZE
    let t1 := (t + k) % CMX_BUFF_SIZE
    if r1 = rr then (out1, t1)
    else
      -- tx ran out first: continue in the mixing branches
      let res := sendMix dec enc sil dsp cv r1 rr t1 tt
      (out1 ++ res.1, res.2)
  else sendMix dec enc sil dsp cv r rr t tt

/-- dsp_cmx_send, lines 853-1077: produces the encoded output frame of the
requested length together with the updated pointer state. The skb
allocation (lines 874-878) is modelled as succeeding; `toneByte` stands for
the external dsp_tone_copy. Modelled from the spec for dsp_tone_copy
(dsp_tones.c is not among the sources): tone_copy fills the output with len
tone samples. -/
def dsp_cmx_send (dec : Nat → Int) (enc : Nat → Nat) (sil : Nat)
    (toneByte : Nat → Nat) (dsp : SendDsp) (cv : ConfView) (len : Nat) :
    List Nat × SendDsp :=
  -- lines 885-900: pointer setup, clamping, and the R_rx store
  let pr := sendRange dsp.R_rx (sendLimit dsp.W_rx cv) len
  let dsp1 := { dsp with R_rx := pr.2 }
  -- STEP 2.0, lines 908-913: tone replaces everything, tx buffer is cleared
  if dsp.tone then
    ((List.range len).map toneByte, { dsp1 with R_tx := 0, W_tx := 0 })
  else
    let res := sendBody dec enc sil dsp cv pr.1 pr.2
    (res.1, { dsp1 with R_tx := res.2 })

/-- The value dsp->largest (= conf->largest) holds at the overflow guard:
lines 744-745 raise it to twice the frame length, lines 764-767 join it with
the conference's value. -/
def recvLargest (dsp : RxDsp) (cf : RxConf) (len : Nat) : Nat :=
  max cf.largest (if dsp.largest < 2 * len then 2 * len else dsp.largest)

/-- The new W_min of lines 761-778. -/
def recvWmin (dsp : RxDsp) (cf : RxConf) (len : Nat) : Nat :=
  recvWminFold ((dsp.W_rx + len) % CMX_BUFF_SIZE) cf.othersWrx

/-- The new W_max of lines 783-792. -/
def recvWmax (dsp : RxDsp) (cf : RxConf) (len : Nat) : Nat :=
  if CMX_BUFF_HALF ≤ cmxSub (recvWmin dsp cf len) cf.W_max then cf.W_max
  else recvWmin dsp cf len

/-! ## Concrete inputs used by the evaluation theorems below -/

/-- A trivial law table: decoding a byte to sample 0. -/
def dec0 : Nat → Int := fun _ => 0

/-- A law table that decodes byte b to the sample 100*b, so that written
conference samples are visibly nonzero. -/
def dec100 : Nat → Int := fun b => (b : Int) * 100

/-- Channel state for the C5 counterexample: fresh channel, empty history. -/
def c5dsp : RxDsp := { W_rx := 0, largest := 0, rx_buff := fun _ => 0 }

/-- Receiving channel for the C4 evaluation: the slower member of a pair. -/
def c4dsp : RxDsp := { W_rx := 100, largest := 100, rx_buff := fun _ => 0 }

/-- Conference for the C4 evaluation: two members at W_rx 100 (the receiver)
and 120, envelope W_min = 100, W_max = 120, all within one half-window, so
the invariant holds before the call. -/
def c4cf : RxConf :=
  { W_min := 100, W_max := 120, largest := 100, conf_buff := fun _ => 0,
    othersWrx := [120], confsAfter := 0 }

/-- Receiving channel for the C3 evaluation. -/
def c3dsp : RxDsp := { W_rx := 5, largest := 100, rx_buff := fun _ => 0 }

/-- A conference of three members (the receiver at W_rx = 5 plus two others,
also at 5) which is the last conference in the registry chain. -/
def c3cf : RxConf :=
  { W_min := 0, W_max := 5, largest := 100, conf_buff := fun _ => 0,
    othersWrx := [5, 5], confsAfter := 0 }

/-- A conference with a single member (the receiver) but two successors in
the registry chain. -/
def c3cfB : RxConf :=
  { W_min := 0, W_max := 5, largest := 100, conf_buff := fun _ => 0,
    othersWrx := [], confsAfter := 2 }

/-- A concrete channel state used by the send-path witnesses. -/
def wSendDsp : SendDsp :=
  { R_rx := 0, W_rx := 8, R_tx := 0, W_tx := 2,
    tx_buff := fun _ => 1, rx_buff := fun _ => 2,
    echo := false, tx_mix := false, tone := false }

/-- A fresh one-member conference for the receive-path witnesses. -/
def wRxConf : RxConf :=
  { W_min := 0, W_max := 0, largest := 0, conf_buff := fun _ => 0,
    othersWrx := [], confsAfter := 0 }

/-- A fresh channel for the receive-path witnesses. -/
def wRxDsp : RxDsp := { W_rx := 0, largest := 0, rx_buff := fun _ => 9 }

/-! ## Member join: dsp_cmx_add_conf_member (dsp_cmx.c lines 219-268) -/

/-- Modelled from the spec: the silence bytes ulawsilence / alawsilence are
defined in dsp.h, which is not among the sources; only their role (the
encoding-appropriate silence byte) matters here. -/
def ulawsilence : Nat := 0xFF

/-- Modelled from the spec: see ulawsilence. -/
def alawsilence : Nat := 0x2A

/-- The fields of dsp_t that dsp_cmx_add_conf_member touches. `inConf`
stands for the dsp->member / dsp->conf back-pointers checked at lines
230-240 and set at lines 264-265. -/
structure AddDsp where
  id : Nat
  ulaw : Bool
  W_rx : Nat
  R_rx : Nat
  rx_buff : Nat → Nat
  inConf : Bool

/-- The fields of conference_t that dsp_cmx_add_conf_member touches; members
are listed by dsp id, head first. -/
structure AddConf where
  members : List Nat
  conf_buff : Nat → Int
  W_max : Nat

/-- dsp_cmx_add_conf_member, lines 219-268. Returns none on the EINVAL
guards (dsp already in a conference; the vmalloc at line 243 is modelled as
succeeding). APPEND_TO_LIST (helper.h, not among the sources) appends at the
tail of the member chain; modelled from the spec: append to conf.members.
The conf-buffer test at line 260, `conf->mlist->next && !conf->mlist->next->next`,
runs after the append and fires exactly when the chain then has two nodes. -/
def dsp_cmx_add_conf_member (dsp : AddDsp) (conf : AddConf) :
    Option (AddDsp × AddConf) :=
  if dsp.inConf then none
  else
    let sil := if dsp.ulaw then ulawsilence else alawsilence
    -- lines 250, 253-254: silence-fill the rx ring, align both pointers
    -- with the conference's leading edge
    let dsp1 := { dsp with
      rx_buff := fun _ => sil,
      W_rx := conf.W_max,
      R_rx := conf.W_max,
      inConf := true }
    -- line 257: append the new member
    let members1 := conf.members ++ [dsp.id]
    -- lines 259-261: zero conf-buffer "if we change from 2 to 3 members"
    let cbuf := if members1.length = 2 then (fun _ => (0 : Int))
                else conf.conf_buff
    some (dsp1, { conf with members := members1, conf_buff := cbuf })

/-- Conference of two members with a visibly nonzero mix buffer. -/
def c6conf2 : AddConf := { members := [1, 2], conf_buff := fun _ => 7, W_max := 0 }

/-- Conference of a single member with the same nonzero mix buffer. -/
def c6conf1 : AddConf := { members := [1], conf_buff := fun _ => 7, W_max := 0 }

/-- The joining channel for the C6 evaluation. -/
def c6dsp : AddDsp :=
  { id := 3, ulaw := false, W_rx := 0, R_rx := 0, rx_buff := fun _ => 0,
    inConf := false }

/-! ## Hardware classifier: dsp_cmx_hfc (dsp_cmx.c lines 385-475) and the
add path of dsp_cmx (lines 611-715) -/

/-- The fields of dsp_t that the classifier and the add path read. -/
structure HfcDsp where
  id : Nat
  tx_mix : Bool
  hfc_id : Nat
deriving DecidableEq

/-- The fields of conference_t they touch; members listed head first. -/
structure HfcConf where
  id : Nat
  hfc_id : Nat
  solution : Int
  members : List HfcDsp
deriving DecidableEq

/-- One entry of the registry chain Conf_list other than the conference under
examination (the scan at lines 437-455 skips `conf_temp == conf`). -/
structure OtherConf where
  id : Nat
  hfc_id : Nat
  solution : Int
deriving DecidableEq

/-- Lines 398-418: every member must be free of tx mixing, sit on an HFC
card, and sit on the same card as the head of the member list; the first
offender makes the function return -1. -/
def hfcMembersOk (headHfc : Nat) : List HfcDsp → Bool
  | [] => true
  | m :: rest =>
      (!m.tx_mix && m.hfc_id != 0 && m.hfc_id == headHfc) &&
        hfcMembersOk headHfc rest

/-- Lines 436-455: walk the other conferences on the same chip; each one
with a positive solution claims its unit in freeunits (indexed 0..7 by its
conference id) and bumps the unit counter. none models the early -1 returns
(unit out of range at line 440, double claim at line 445). -/
def hfcScan (myHfc : Nat) :
    List OtherConf → (Nat → Nat) → Nat → Option ((Nat → Nat) × Nat)
  | [], fu, unit => some (fu, unit)
  | oc :: rest, fu, unit =>
      if oc.hfc_id = myHfc then
        if 8 < oc.solution then none
        else if 0 < oc.solution then
          if fu (oc.solution.toNat - 1) ≠ 0 then none
          else
            hfcScan myHfc rest
              (fun j => if j = oc.solution.toNat - 1 then oc.id else fu j)
              (unit + 1)
        else hfcScan myHfc rest fu unit
      else hfcScan myHfc rest fu unit

/-- Lines 466-474: `i = 0; while(i < 8) if (unit > 8) { if (freeunits[i] == 0)
return i+1; i++ }` followed by `return -1`. When unit > 8 the body scans
freeunits and the loop terminates (some result); when unit is at most 8 the
if-body never runs, i stays 0 and the while loop never terminates, which is
modelled as none. -/
def hfcUnitScan (fu : Nat → Nat) (unit : Nat) : Option Int :=
  if 8 < unit then
    match (List.range 8).find? (fun i => fu i == 0) with
    | some i => some ((i : Int) + 1)
    | none => some (-1)
  else none

/-- dsp_cmx_hfc, lines 385-475: none when the C function does not return
(the dead allocation loop), some r when it returns r. -/
def dsp_cmx_hfc (conf : HfcConf) (others : List OtherConf) : Option Int :=
  let headHfc := (conf.members.headD ⟨0, false, 0⟩).hfc_id
  if hfcMembersOk headHfc conf.members = false then some (-1)
  -- line 421: fewer than two members never needs hardware
  else if conf.members.length < 2 then some (-1)
  -- line 430: exactly two members make a crossconnect
  else if conf.members.length = 2 then some 0
  else
    match hfcScan conf.hfc_id others (fun _ => 0) 0 with
    | none => some (-1)
    | some fuunit =>
        -- line 458: more than 8 units in use
        if 8 < fuunit.2 then some (-1)
        -- lines 463-464: keep the current unit if it is already valid
        else if 0 < conf.solution then some conf.solution
        -- lines 466-474: the dead scan
        else hfcUnitScan fuunit.1 fuunit.2

/-- A hardware notification sent through the offload stubs
dsp_cmx_hfc_cross_message / dsp_cmx_hfc_conf_message. -/
inductive HwMsg where
  | crossMsg (a b : Nat) (enable : Bool)
  | confMsg (dspId : Nat) (num : Int)
deriving DecidableEq

/-- The add-to-conference tail of dsp_cmx, lines 629-715, entered when
`dsp->conf_id && dsp->b_active` holds and the conference has been found or
created. `hasNext` models `conf->next`, the successor of this conference in
the registry chain Conf_list; `others` feeds dsp_cmx_hfc. Returns the
updated conference and the hardware messages in the order sent; none models
the only2members error returns and the non-terminating classifier. -/
def dsp_cmx_addPath (dsp : HfcDsp) (conf : HfcConf) (hasNext : Bool)
    (others : List OtherConf) : Option (HfcConf × List HwMsg) :=
  -- lines 630-638: remember the two members iff exactly two are present
  let memberPair : Option (Nat × Nat) :=
    match conf.members with
    | [m1, m2] => some (m1.id, m2.id)
    | _ => none
  -- lines 640-644: dsp_cmx_add_conf_member (member-list effect; the buffer
  -- and pointer effects are in dsp_cmx_add_conf_member above)
  let conf1 := { conf with members := conf.members ++ [dsp] }
  -- lines 646-652: `if (!conf->next) { ... return(0); }`
  if hasNext = false then some (conf1, [])
  else
    -- lines 656-657
    match dsp_cmx_hfc conf1 others with
    | none => none
    | some nw =>
        let old := conf1.solution
        -- lines 658-670: a hardware conference became too complex
        let step1 : HfcConf × List HwMsg :=
          if nw ≤ 0 ∧ 0 < old then
            ({ conf1 with solution := -1, hfc_id := 0 },
             conf1.members.map (fun m => HwMsg.confMsg m.id 0))
          else (conf1, [])
        -- lines 672-682: a hardware crossconnect became too complex
        let step2 : Option (HfcConf × List HwMsg) :=
          if nw ≠ 0 ∧ old = 0 then
            match memberPair with
            | none => none
            | some p =>
                some ({ step1.1 with solution := -1, hfc_id := 0 },
                  step1.2 ++ [HwMsg.crossMsg p.1 p.2 false])
          else some step1
        match step2 with
        | none => none
        | some st2 =>
            -- lines 684-696: a hardware conference became possible
            let step3 : HfcConf × List HwMsg :=
              if 0 < nw then
                ({ st2.1 with solution := nw, hfc_id := dsp.hfc_id },
                 st2.2 ++ st2.1.members.map (fun m => HwMsg.confMsg m.id nw))
              else st2
            -- lines 698-713: a hardware crossconnect became possible
            if nw = 0 then
              match step3.1.members with
              | [m1, m2] =>
                  some ({ step3.1 with solution := 0, hfc_id := dsp.hfc_id },
                    step3.2 ++ [HwMsg.crossMsg m1.id m2.id true])
              | _ => none
            else some step3

/-- A three-member conference on chip 7 whose solution is still Software. -/
def c8conf : HfcConf :=
  { id := 1, hfc_id := 7, solution := -1,
    members := [⟨10, false, 7⟩, ⟨11, false, 7⟩, ⟨12, false, 7⟩] }

/-- A conference holding one member on chip 7, about to receive a second. -/
def c7conf : HfcConf :=
  { id := 1, hfc_id := 0, solution := -1, members := [⟨10, false, 7⟩] }

/-- The joining channel for the C7 evaluation, also on chip 7. -/
def c7dsp : HfcDsp := ⟨11, false, 7⟩

/-! ## DTMF digit debouncing: dsp_dtmf.c lines 215-241 -/

/-- Modelled from the spec: dsp->dtmf.digits is a bounded output buffer
declared in dsp.h, which is not among the sources; its capacity does not
matter for the claims and is fixed at 64. -/
def DTMF_DIGITS_SIZE : Nat := 64

/-- The debouncing state of the decoder (struct dtmf fields lastwhat,
lastdigit, count and the digit output buffer); a digit is a byte, 0 is
"no tone". -/
structure DtmfState where
  lastwhat : Nat
  lastdigit : Nat
  count : Nat
  digits : List Nat

/-- dsp_dtmf_goertzel_init, dsp_dtmf.c lines 43-49. -/
def dsp_dtmf_goertzel_init : DtmfState :=
  { lastwhat := 0, lastdigit := 0, count := 0, digits := [] }

/-- The storedigit tail of dsp_dtmf_goertzel_decode, lines 219-239: one
frame decision `what` (the candidate digit, or 0 for no tone) updates the
debouncing state. -/
def dtmf_store (st : DtmfState) (what : Nat) : DtmfState :=
  -- lines 219-220: a changed decision resets the run counter
  let count0 := if st.lastwhat ≠ what then 0 else st.count
  -- lines 223-235: the decision must repeat three times without change
  if count0 = 2 then
    if st.lastdigit ≠ what then
      { lastwhat := what, lastdigit := what, count := count0,
        digits :=
          -- lines 226-233: append when nonzero and space remains
          if what ≠ 0 ∧ st.digits.length + 1 < DTMF_DIGITS_SIZE
          then st.digits ++ [what] else st.digits }
    else { st with lastwhat := what, count := count0 }
  -- lines 236-237
  else { st with lastwhat := what, count := count0 + 1 }

/-- A sequence of per-frame decisions driven through the debouncer. -/
def dtmf_run (st : DtmfState) (ws : List Nat) : DtmfState :=
  ws.foldl dtmf_store st

theorem cmxSub_lt (a b : Nat) : cmxSub a b < CMX_BUFF_SIZE := by
  simp only [cmxSub, CMX_BUFF_SIZE]
  omega

theorem cmxSub_add_len (r len : Nat) :
    cmxSub ((r + len) % CMX_BUFF_SIZE) r = len % CMX_BUFF_SIZE := by
  simp only [cmxSub, CMX_BUFF_SIZE]
  omega

theorem cmxSub_sub_len (rr len : Nat) :
    cmxSub rr (cmxSub rr len) = len % CMX_BUFF_SIZE := by
  simp only [cmxSub, CMX_BUFF_SIZE]
  omega

theorem cmxSub_advance (rr r k : Nat) (hk : k ≤ cmxSub rr r) :
    cmxSub rr ((r + k) % CMX_BUFF_SIZE) = cmxSub rr r - k := by
  simp only [cmxSub, CMX_BUFF_SIZE] at *
  omega

theorem cmxSub_eq_of_add_mod (rr r k : Nat) (hk : k ≤ cmxSub rr r)
    (h : (r + k) % CMX_BUFF_SIZE = rr) : k = cmxSub rr r := by
  simp only [cmxSub, CMX_BUFF_SIZE] at *
  omega

theorem loopRT_length (f r t k) : (loopRT f r t k).length = k := by
  simp [loopRT]

theorem loopR_length (g r k) : (loopR g r k).length = k := by
  simp [loopR]

theorem sendRange_dist (r0 rr0 len : Nat) :
    cmxSub (sendRange r0 rr0 len).2 (sendRange r0 rr0 len).1 =
      len % CMX_BUFF_SIZE := by
  unfold sendRange
  split
  · exact cmxSub_sub_len rr0 len
  · exact cmxSub_add_len r0 len

theorem sendMix_length (dec : Nat → Int) (enc : Nat → Nat) (sil : Nat)
    (dsp : SendDsp) (cv : ConfView) (r rr t tt : Nat) :
    (sendMix dec enc sil dsp cv r rr t tt).1.length = cmxSub rr r := by
  rcases cv with _ | w | ⟨w, orx, odec⟩ | ⟨w, cbuf⟩ <;>
    by_cases he : dsp.echo <;>
      simp [sendMix, he, loopRT_length, loopR_length]

theorem sendBody_length (dec : Nat → Int) (enc : Nat → Nat) (sil : Nat)
    (dsp : SendDsp) (cv : ConfView) (r rr : Nat) :
    (sendBody dec enc sil dsp cv r rr).1.length = cmxSub rr r := by
  simp only [sendBody]
  split
  · split
    · rename_i h1
      rw [loopRT_length]
      exact cmxSub_eq_of_add_mod rr r _ (Nat.min_le_left _ _) h1
    · have hadv := cmxSub_advance rr r
        (min (cmxSub rr r) (cmxSub dsp.W_tx dsp.R_tx)) (Nat.min_le_left _ _)
      simp only [List.length_append, sendMix_length, loopRT_length, hadv]
      omega
  · exact sendMix_length dec enc sil dsp cv r rr dsp.R_tx dsp.W_tx

/-- C1: for every call of dsp_cmx_send with 0 < len (and len below the ring
size, as any real frame is), assuming the skb allocation succeeds, the
produced frame holds exactly len encoded bytes, in every branch: tone, tx
drain with early return, tx drain falling through into a mix branch, solo
with echo on or off, pair with echo on or off, and group of three or more
members with echo on or off. -/
theorem cmx_send_frame_length (dec : Nat → Int) (enc : Nat → Nat) (sil : Nat)
    (toneByte : Nat → Nat) (dsp : SendDsp) (cv : ConfView) (len : Nat)
    (_hpos : 0 < len) (hlen : len < CMX_BUFF_SIZE) :
    (dsp_cmx_send dec enc sil toneByte dsp cv len).1.length = len := by
  have hmod : len % CMX_BUFF_SIZE = len := Nat.mod_eq_of_lt hlen
  simp only [dsp_cmx_send]
  split
  · simp
  · rw [sendBody_length, sendRange_dist, hmod]

/-- C10: every dsp_cmx_send call that returns a frame advances R_rx, in every
branch including the tone branch: the new R_rx is the value rr of the range
setup, which is old R_rx + len (mod BUFF_SIZE) when that stays short of the
read limit (conf->W_min in a conference, dsp->W_rx otherwise), and the limit
itself when the advance would overrun it, with the effective read start r
clamped to rr - len; in both cases rr is exactly len bytes past r. -/
theorem cmx_send_advances_R_rx (dec : Nat → Int) (enc : Nat → Nat) (sil : Nat)
    (toneByte : Nat → Nat) (dsp : SendDsp) (cv : ConfView) (len : Nat)
    (hlen : len < CMX_BUFF_SIZE) :
    (CMX_BUFF_HALF ≤ cmxSub (sendLimit dsp.W_rx cv) (dsp.R_rx + len) →
        (dsp_cmx_send dec enc sil toneByte dsp cv len).2.R_rx =
          sendLimit dsp.W_rx cv) ∧
    (cmxSub (sendLimit dsp.W_rx cv) (dsp.R_rx + len) < CMX_BUFF_HALF →
        (dsp_cmx_send dec enc sil toneByte dsp cv len).2.R_rx =
          (dsp.R_rx + len) % CMX_BUFF_SIZE) ∧
    cmxSub (dsp_cmx_send dec enc sil toneByte dsp cv len).2.R_rx
        (sendRange dsp.R_rx (sendLimit dsp.W_rx cv) len).1 = len := by
  have hRrx : (dsp_cmx_send dec enc sil toneByte dsp cv len).2.R_rx =
      (sendRange dsp.R_rx (sendLimit dsp.W_rx cv) len).2 := by
    simp only [dsp_cmx_send]
    split <;> rfl
  refine ⟨fun hcl => ?_, fun hcl => ?_, ?_⟩
  · rw [hRrx]
    simp only [sendRange, if_pos hcl]
  · rw [hRrx]
    simp only [sendRange]
    rw [if_neg (by omega)]
  · rw [hRrx, sendRange_dist, Nat.mod_eq_of_lt hlen]

/-! ## Lemmas about the rx ring write of dsp_cmx_receive -/

theorem writeRx_out (buf : Nat → Nat) (w : Nat) (data : List Nat) (x : Nat)
    (hx : ∀ j, j < data.length → x ≠ (w + j) % CMX_BUFF_SIZE) :
    writeRx buf w data x = buf x := by
  induction data generalizing buf w with
  | nil => rfl
  | cons b bs ih =>
      simp only [writeRx]
      rw [ih]
      · have h0 : x ≠ w % CMX_BUFF_SIZE := by
          have := hx 0 (by simp)
          simpa using this
        simp [h0]
      · intro j hj
        have := hx (j + 1) (by simp; omega)
        intro hc
        exact this (by rw [hc]; ring_nf)

theorem writeRx_get (buf : Nat → Nat) (w : Nat) (data : List Nat)
    (hlen : data.length ≤ CMX_BUFF_SIZE) (i : Nat) (hi : i < data.length) :
    writeRx buf w data ((w + i) % CMX_BUFF_SIZE) = data.getD i 0 := by
  induction data generalizing buf w i with
  | nil => cases hi
  | cons b bs ih =>
      cases i with
      | zero =>
          simp only [writeRx]
          rw [writeRx_out]
          · simp
          · intro j hj
            simp only [List.length_cons, CMX_BUFF_SIZE] at *
            omega
      | succ i =>
          simp only [writeRx]
          have hsh : (w + (i + 1)) % CMX_BUFF_SIZE =
              ((w + 1) + i) % CMX_BUFF_SIZE := by ring_nf
          rw [hsh, ih]
          · simp
          · simp only [List.length_cons] at hlen
            omega
          · simpa using hi

/-- C2: for a conference frame that passed the length checks, the overflow
guard decides everything: when (W_max - W_min) mod BUFF_SIZE exceeds the
channel's largest (as updated by this call), the frame is dropped with
channel.W_rx, the rx ring, conf.W_max and conf_buff all untouched (only
largest and the already-stored conf.W_min change); otherwise the len bytes
are stored at W_rx, channel.W_rx advances by len mod BUFF_SIZE, and
conf.W_max becomes the newly computed W_max. -/
theorem cmx_receive_overflow_guard (dec : Nat → Int) (dsp : RxDsp)
    (cf : RxConf) (data : List Nat) (hpos : 0 < data.length)
    (hlen : data.length < CMX_BUFF_HALF / 4) :
    (recvLargest dsp cf data.length <
        cmxSub (recvWmax dsp cf data.length) (recvWmin dsp cf data.length) →
      (dsp_cmx_receive dec dsp (some cf) data).1.W_rx = dsp.W_rx ∧
      (dsp_cmx_receive dec dsp (some cf) data).1.rx_buff = dsp.rx_buff ∧
      (dsp_cmx_receive dec dsp (some cf) data).2 =
        some { cf with largest := recvLargest dsp cf data.length,
                       W_min := recvWmin dsp cf data.length }) ∧
    (cmxSub (recvWmax dsp cf data.length) (recvWmin dsp cf data.length) ≤
        recvLargest dsp cf data.length →
      (dsp_cmx_receive dec dsp (some cf) data).1.W_rx =
        (dsp.W_rx + data.length) % CMX_BUFF_SIZE ∧
      (∀ i, i < data.length →
        (dsp_cmx_receive dec dsp (some cf) data).1.rx_buff
            ((dsp.W_rx + i) % CMX_BUFF_SIZE) = data.getD i 0) ∧
      ∃ cf2, (dsp_cmx_receive dec dsp (some cf) data).2 = some cf2 ∧
        cf2.W_max = recvWmax dsp cf data.length) := by
  have h1 : ¬ data.length < 1 := by omega
  have h2 : ¬ CMX_BUFF_HALF / 4 ≤ data.length := by omega
  have hsz : data.length ≤ CMX_BUFF_SIZE := by
    simp only [CMX_BUFF_HALF, CMX_BUFF_SIZE] at *
    omega
  constructor
  · intro hg
    have hg2 : ¬ cmxSub (recvWmax dsp cf data.length)
        (recvWmin dsp cf data.length) ≤ recvLargest dsp cf data.length := by
      omega
    simp only [dsp_cmx_receive, if_neg h1, if_neg h2, recvProcess,
      recvLargest, recvWmin, recvWmax] at *
    rw [if_neg hg2]
    exact ⟨rfl, rfl, rfl⟩
  · intro hg
    simp only [dsp_cmx_receive, if_neg h1, if_neg h2, recvProcess,
      recvLargest, recvWmin, recvWmax] at *
    rw [if_pos hg]
    refine ⟨rfl, fun i hi => writeRx_get _ _ _ hsz i hi, ⟨_, rfl, rfl⟩⟩

set_option maxRecDepth 4000 in
/-- C5 counterexample: a frame of exactly BUFF_HALF / 4 = 128 bytes. The
claim says such a frame is not rejected by the size check and that a
too-large drop leaves all state unchanged; the code rejects it (W_rx would
be 128 after an accepted frame, it stays 0 and the conference slot is
untouched) and still raises channel.largest from 0 to 256, because the
largest update at lines 744-745 precedes the size check at line 748. -/
theorem c5_size_check_counterexample :
    (dsp_cmx_receive dec0 c5dsp none (List.replicate 128 7)).1.W_rx = 0 ∧
    (dsp_cmx_receive dec0 c5dsp none (List.replicate 128 7)).1.largest = 256 ∧
    (dsp_cmx_receive dec0 c5dsp none (List.replicate 128 7)).2.isNone = true := by
  decide

/-- C5 (amended): dsp_cmx_receive rejects a frame exactly when len = 0 or
len is at least BUFF_HALF / 4; the largest update precedes the size check,
so channel.largest is raised to max(largest, 2*len) for every nonempty
frame, including too-large rejected ones, while everything else (including
the conference, hence the propagation of largest to it) is only touched by
frames that pass both checks; frames with 0 < len < BUFF_HALF / 4 are not
rejected by the size check and proceed to the buffer-writing stage. -/
theorem cmx_receive_size_check (dec : Nat → Int) (dsp : RxDsp)
    (conf : Option RxConf) (data : List Nat) :
    (data.length = 0 → dsp_cmx_receive dec dsp conf data = (dsp, conf)) ∧
    (0 < data.length → CMX_BUFF_HALF / 4 ≤ data.length →
      dsp_cmx_receive dec dsp conf data =
        ({ dsp with largest := max dsp.largest (2 * data.length) }, conf)) ∧
    (0 < data.length → data.length < CMX_BUFF_HALF / 4 →
      dsp_cmx_receive dec dsp conf data =
        recvProcess dec
          { dsp with largest := max dsp.largest (2 * data.length) } conf data) := by
  have hmax : (if dsp.largest < 2 * data.length then 2 * data.length
      else dsp.largest) = max dsp.largest (2 * data.length) := by
    rcases Nat.lt_or_ge dsp.largest (2 * data.length) with h | h
    · rw [if_pos h]
      omega
    · rw [if_neg (by omega)]
      omega
  refine ⟨fun h0 => ?_, fun hp hbig => ?_, fun hp hsmall => ?_⟩
  · simp [dsp_cmx_receive, h0]
  · simp only [dsp_cmx_receive, hmax]
    rw [if_neg (by omega), if_pos hbig]
  · simp only [dsp_cmx_receive, hmax]
    rw [if_neg (by omega), if_neg (by omega)]

/-- C4 (evaluation at the failing input): the pre-state satisfies the claimed
invariant; a 50-byte frame for the slower member is accepted and advances its
W_rx to 150, but conf.W_max is recomputed as the later of W_min (= 120, the
other member) and the old W_max (= 120) only -- the receiver's own advance is
ignored (the term is commented out at lines 788-791) -- so the member ends up
ahead of conf.W_max, violating the invariant and the source's own comment
that W_max is the highest write pointer. -/
theorem c4_wmax_left_behind :
    (cmxSub c4dsp.W_rx c4cf.W_min < CMX_BUFF_HALF ∧
     cmxSub 120 c4cf.W_min < CMX_BUFF_HALF ∧
     cmxSub c4cf.W_max c4dsp.W_rx < CMX_BUFF_HALF ∧
     cmxSub c4cf.W_max 120 < CMX_BUFF_HALF) ∧
    (dsp_cmx_receive dec0 c4dsp (some c4cf) (List.replicate 50 7)).1.W_rx = 150 ∧
    Option.map (fun c => c.W_max)
      (dsp_cmx_receive dec0 c4dsp (some c4cf) (List.replicate 50 7)).2 =
      some 120 ∧
    CMX_BUFF_HALF ≤
      cmxSub 120 (dsp_cmx_receive dec0 c4dsp (some c4cf)
        (List.replicate 50 7)).1.W_rx := by
  decide

/-- C3 (evaluation at the failing input): an accepted 1-byte frame on a
3-member conference that is the sole (last) conference in the registry is
written to the rx ring and advances W_rx, yet nothing is written to
conf_buff, because the guard at line 817 walks the registry chain
(conf->next->next) instead of the member list; conversely a 1-member
conference does get its sample written as soon as two more conferences
follow it in the registry. -/
theorem c3_conf_buffer_guard :
    (dsp_cmx_receive dec100 c3dsp (some c3cf) [7]).1.W_rx = 6 ∧
    (dsp_cmx_receive dec100 c3dsp (some c3cf) [7]).1.rx_buff 5 = 7 ∧
    Option.map (fun c => c.conf_buff 5)
      (dsp_cmx_receive dec100 c3dsp (some c3cf) [7]).2 = some 0 ∧
    Option.map (fun c => c.conf_buff 5)
      (dsp_cmx_receive dec100 c3dsp (some c3cfB) [7]).2 = some 700 := by
  decide

/-- Witness for C1: at a concrete channel with two queued tx bytes and a
4-byte request, the produced frame has exactly 4 bytes. -/
theorem cmx_send_frame_length_witness :
    0 < 4 ∧ 4 < CMX_BUFF_SIZE ∧
    (dsp_cmx_send dec0 (fun s => s) 42 (fun _ => 0) wSendDsp
      ConfView.noConf 4).1.length = 4 :=
  ⟨by decide, by decide,
   cmx_send_frame_length dec0 (fun s => s) 42 (fun _ => 0) wSendDsp
     ConfView.noConf 4 (by decide) (by decide)⟩

/-- Witness for C10: the same concrete call advances R_rx from 0 to 4
(= R_rx + len, which stays short of the limit W_rx = 8). -/
theorem cmx_send_advances_R_rx_witness :
    (dsp_cmx_send dec0 (fun s => s) 42 (fun _ => 0) wSendDsp
      ConfView.noConf 4).2.R_rx = 4 :=
  (cmx_send_advances_R_rx dec0 (fun s => s) 42 (fun _ => 0) wSendDsp
    ConfView.noConf 4 (by decide)).2.1 (by decide)

/-- Witness for C2: a 2-byte frame on a fresh conference passes the guard and
advances W_rx by 2. -/
theorem cmx_receive_overflow_guard_witness :
    (dsp_cmx_receive dec0 wRxDsp (some wRxConf) [3, 5]).1.W_rx = 2 :=
  ((cmx_receive_overflow_guard dec0 wRxDsp wRxConf [3, 5]
    (by decide) (by decide)).2 (by decide)).1

/-- Witness for C5 (amended): a 2-byte frame is below the size bound, so the
call proceeds to the buffer-writing stage with largest raised to 4. -/
theorem cmx_receive_size_check_witness :
    dsp_cmx_receive dec0 wRxDsp none [3, 5] =
      recvProcess dec0 { wRxDsp with largest := 4 } none [3, 5] :=
  (cmx_receive_size_check dec0 wRxDsp none [3, 5]).2.2 (by decide) (by decide)

/-- C6 (evaluation at the failing input): adding a third member to a
conference of two leaves conf_buff untouched (it still reads 7), while
adding a second member to a conference of one zeroes it -- the test at line
260 runs after the append and fires at a post-add count of 2, although the
claim (and the comment at line 259) put the zeroing at the 2-to-3
transition. -/
theorem c6_zeroing_transition :
    Option.map (fun pc => pc.2.members.length)
      (dsp_cmx_add_conf_member c6dsp c6conf2) = some 3 ∧
    Option.map (fun pc => pc.2.conf_buff 0)
      (dsp_cmx_add_conf_member c6dsp c6conf2) = some 7 ∧
    Option.map (fun pc => pc.2.members.length)
      (dsp_cmx_add_conf_member c6dsp c6conf1) = some 2 ∧
    Option.map (fun pc => pc.2.conf_buff 0)
      (dsp_cmx_add_conf_member c6dsp c6conf1) = some 0 := by
  decide

/-- C8 (evaluation at the failing input): for three members sharing chip 7
with no unit claimed anywhere, the claim expects the lowest free unit 1; the
code instead never returns (none: the scan loop body is guarded by the
unreachable `unit > 8`, so the while loop spins). Retention of an already
valid unit does work: with solution = 3 the function returns 3. -/
theorem c8_unit_allocation :
    dsp_cmx_hfc c8conf [] = none ∧
    dsp_cmx_hfc { c8conf with solution := 3 } [] = some 3 := by
  decide

/-- C7 (evaluation at the failing input): adding the second member while the
conference is the last (here: only) one in the registry returns at line 647
before the classifier runs -- no message is sent and the solution stays
Software (-1) -- whereas the very same add with a successor conference in
the registry enables the crossconnect once and sets the solution to 0. -/
theorem c7_lone_conference_skips_classifier :
    dsp_cmx_addPath c7dsp c7conf false [] =
      some ({ c7conf with members := [⟨10, false, 7⟩, ⟨11, false, 7⟩] }, []) ∧
    dsp_cmx_addPath c7dsp c7conf true [] =
      some ({ c7conf with
                members := [⟨10, false, 7⟩, ⟨11, false, 7⟩],
                solution := 0,
                hfc_id := 7 },
        [HwMsg.crossMsg 10 11 true]) := by
  decide

theorem dtmf_run_append (st : DtmfState) (ws : List Nat) (w : Nat) :
    dtmf_run st (ws ++ [w]) = dtmf_store (dtmf_run st ws) w := by
  simp [dtmf_run]

theorem dtmf_store_lastwhat (st : DtmfState) (w : Nat) :
    (dtmf_store st w).lastwhat = w := by
  simp only [dtmf_store]
  split_ifs <;> rfl

theorem getD_concat_self (l : List Nat) (w d : Nat) :
    (l ++ [w]).getD l.length d = w := by
  simp [List.getD_eq_getElem?_getD, List.getElem?_concat_length]

theorem getD_concat_lt (l : List Nat) (w d i : Nat) (h : i < l.length) :
    (l ++ [w]).getD i d = l.getD i d := by
  rw [List.getD_eq_getElem?_getD, List.getD_eq_getElem?_getD,
    List.getElem?_append_left h]

theorem getD_take_lt (l : List Nat) (d i n : Nat) (h : i < n) :
    (l.take n).getD i d = l.getD i d := by
  rw [List.getD_eq_getElem?_getD, List.getD_eq_getElem?_getD,
    List.getElem?_take, if_pos h]

theorem dtmf_run_lastwhat (st : DtmfState) (ws : List Nat) :
    (dtmf_run st ws).lastwhat = ws.getD (ws.length - 1) st.lastwhat := by
  induction ws using List.reverseRecOn with
  | nil => rfl
  | append_singleton l w ih =>
      rw [dtmf_run_append, dtmf_store_lastwhat]
      have hlen : (l ++ [w]).length - 1 = l.length := by simp
      rw [hlen, getD_concat_self]

theorem dtmf_store_digits_change (st : DtmfState) (w : Nat)
    (h : (dtmf_store st w).digits ≠ st.digits) :
    st.count = 2 ∧ st.lastwhat = w ∧ st.lastdigit ≠ w ∧ w ≠ 0 := by
  by_cases hlw : st.lastwhat = w
  · by_cases hc : st.count = 2
    · by_cases hld : st.lastdigit = w
      · exact absurd (by simp [dtmf_store, hlw, hc, hld]) h
      · by_cases hap : w ≠ 0 ∧ st.digits.length + 1 < DTMF_DIGITS_SIZE
        · exact ⟨hc, hlw, hld, hap.1⟩
        · exact absurd (by simp [dtmf_store, hlw, hc, hld, hap]) h
    · exact absurd (by simp [dtmf_store, hlw, hc]) h
  · exact absurd (by simp [dtmf_store, hlw]) h

theorem dtmf_store_count_two (st : DtmfState) (w : Nat)
    (h : (dtmf_store st w).count = 2) :
    st.lastwhat = w ∧ (st.count = 2 ∨ st.count = 1) := by
  by_cases hlw : st.lastwhat = w
  · by_cases hc : st.count = 2
    · exact ⟨hlw, Or.inl hc⟩
    · have : st.count + 1 = 2 := by simpa [dtmf_store, hlw, hc] using h
      exact ⟨hlw, Or.inr (by omega)⟩
  · exfalso
    simp [dtmf_store, hlw] at h

theorem dtmf_run_count_two (ws : List Nat)
    (h : (dtmf_run dsp_dtmf_goertzel_init ws).count = 2) :
    2 ≤ ws.length ∧
    ws.getD (ws.length - 1) 0 = ws.getD (ws.length - 2) 0 ∧
    (dtmf_run dsp_dtmf_goertzel_init ws).lastwhat =
      ws.getD (ws.length - 1) 0 := by
  induction ws using List.reverseRecOn with
  | nil => simp [dtmf_run, dsp_dtmf_goertzel_init] at h
  | append_singleton l w ih =>
      rw [dtmf_run_append] at h
      obtain ⟨hlw, hcnt⟩ := dtmf_store_count_two _ _ h
      have hlast : (dtmf_run dsp_dtmf_goertzel_init l).lastwhat =
          l.getD (l.length - 1) 0 := by
        simpa [dsp_dtmf_goertzel_init] using
          dtmf_run_lastwhat dsp_dtmf_goertzel_init l
      have e1 : (l ++ [w]).length - 1 = l.length := by simp
      have e2 : (l ++ [w]).length - 2 = l.length - 1 := by simp
      have hl1 : 1 ≤ l.length := by
        rcases hcnt with hc2 | hc1
        · have := (ih hc2).1
          omega
        · by_contra hlt
          have hnil : l = [] := by
            cases l with
            | nil => rfl
            | cons a t => simp at hlt
          rw [hnil] at hc1
          simp [dtmf_run, dsp_dtmf_goertzel_init] at hc1
      have hlastw : l.getD (l.length - 1) 0 = w := by
        rcases hcnt with hc2 | hc1
        · obtain ⟨_, _, hlw2⟩ := ih hc2
          rw [← hlw2]
          exact hlw
        · rw [← hlast]
          exact hlw
      refine ⟨by simp [hl1], ?_, ?_⟩
      · rw [e1, e2, getD_concat_self, getD_concat_lt _ _ _ _ (by omega), hlastw]
      · rw [dtmf_run_append, dtmf_store_lastwhat, e1, getD_concat_self]

theorem dtmf_run_take_succ (st : DtmfState) (ws : List Nat) (i : Nat)
    (h : i < ws.length) :
    dtmf_run st (ws.take (i + 1)) =
      dtmf_store (dtmf_run st (ws.take i)) (ws.getD i 0) := by
  rw [List.take_succ, List.getElem?_eq_getElem h]
  rw [show (some ws[i]).toList = [ws[i]] from rfl, dtmf_run_append]
  congr 1
  rw [List.getD_eq_getElem?_getD, List.getElem?_eq_getElem h]
  rfl

theorem dtmf_emit_three_aux (ws : List Nat) (i : Nat)
    (h : (dtmf_run dsp_dtmf_goertzel_init (ws.take (i + 1))).digits ≠
         (dtmf_run dsp_dtmf_goertzel_init (ws.take i)).digits) :
    2 ≤ i ∧ i < ws.length ∧
    ws.getD i 0 = ws.getD (i - 1) 0 ∧ ws.getD i 0 = ws.getD (i - 2) 0 ∧
    ws.getD i 0 ≠ (dtmf_run dsp_dtmf_goertzel_init (ws.take i)).lastdigit ∧
    ws.getD i 0 ≠ 0 := by
  have hi : i < ws.length := by
    by_contra hge
    apply h
    rw [List.take_of_length_le (by omega), List.take_of_length_le (by omega)]
  rw [dtmf_run_take_succ _ _ _ hi] at h
  obtain ⟨hc2, hlw, hld, hw0⟩ := dtmf_store_digits_change _ _ h
  obtain ⟨h2, heq, hlast⟩ := dtmf_run_count_two (ws.take i) hc2
  have hlentake : (ws.take i).length = i := by
    rw [List.length_take]
    omega
  rw [hlentake] at h2 heq hlast
  have hi2 : 2 ≤ i := h2
  rw [getD_take_lt _ _ _ _ (by omega), getD_take_lt _ _ _ _ (by omega)] at heq
  rw [getD_take_lt _ _ _ _ (by omega)] at hlast
  refine ⟨hi2, hi, ?_, ?_, fun hcon => hld ?_, hw0⟩
  · rw [← hlw, hlast]
  · rw [← hlw, hlast, heq]
  · rw [← hcon]

theorem dtmf_no_triple_no_digit (ws : List Nat)
    (h : ∀ i, i < ws.length →
      ¬(ws.getD i 0 ≠ 0 ∧ i + 2 < ws.length ∧
        ws.getD i 0 = ws.getD (i + 1) 0 ∧ ws.getD i 0 = ws.getD (i + 2) 0)) :
    (dtmf_run dsp_dtmf_goertzel_init ws).digits = [] := by
  induction ws using List.reverseRecOn with
  | nil => rfl
  | append_singleton l w ih =>
      have hlen : (l ++ [w]).length = l.length + 1 := by simp
      have hIH : (dtmf_run dsp_dtmf_goertzel_init l).digits = [] := by
        apply ih
        intro i hi hcon
        obtain ⟨hnz, hi2, he1, he2⟩ := hcon
        apply h i (by omega)
        rw [hlen]
        rw [getD_concat_lt _ _ _ _ (by omega), getD_concat_lt _ _ _ _ (by omega),
          getD_concat_lt _ _ _ _ (by omega)]
        exact ⟨hnz, by omega, he1, he2⟩
      rw [dtmf_run_append]
      by_cases hch : (dtmf_store (dtmf_run dsp_dtmf_goertzel_init l) w).digits =
          (dtmf_run dsp_dtmf_goertzel_init l).digits
      · rw [hch, hIH]
      · exfalso
        obtain ⟨hc2, hlw, _, hw0⟩ := dtmf_store_digits_change _ _ hch
        obtain ⟨h2, heq, hlast⟩ := dtmf_run_count_two l hc2
        have hw1 : l.getD (l.length - 1) 0 = w := by
          rw [← hlast, hlw]
        have hw2 : l.getD (l.length - 2) 0 = w := by
          rw [← heq, hw1]
        apply h (l.length - 2) (by omega)
        refine ⟨?_, by omega, ?_, ?_⟩
        · rw [getD_concat_lt _ _ _ _ (by omega), hw2]
          exact hw0
        · rw [getD_concat_lt _ _ _ _ (by omega),
            getD_concat_lt _ _ _ _ (by omega)]
          rw [hw2, show l.length - 2 + 1 = l.length - 1 by omega, hw1]
        · rw [getD_concat_lt _ _ _ _ (by omega),
            show l.length - 2 + 2 = l.length by omega, getD_concat_self, hw2]

/-- C9: the debouncer appends a digit at a frame boundary only when the
per-frame decision equals the decisions of the two immediately preceding
frames (and is nonzero and differs from the last emitted digit); hence a
decision sequence without three identical consecutive nonzero decisions --
in particular one with only two-frame bursts -- emits nothing. -/
theorem dtmf_three_frame_hysteresis :
    (∀ (ws : List Nat) (i : Nat),
      (dtmf_run dsp_dtmf_goertzel_init (ws.take (i + 1))).digits ≠
        (dtmf_run dsp_dtmf_goertzel_init (ws.take i)).digits →
      2 ≤ i ∧ i < ws.length ∧
      ws.getD i 0 = ws.getD (i - 1) 0 ∧ ws.getD i 0 = ws.getD (i - 2) 0 ∧
      ws.getD i 0 ≠ (dtmf_run dsp_dtmf_goertzel_init (ws.take i)).lastdigit ∧
      ws.getD i 0 ≠ 0) ∧
    (∀ ws : List Nat,
      (∀ i, i < ws.length →
        ¬(ws.getD i 0 ≠ 0 ∧ i + 2 < ws.length ∧
          ws.getD i 0 = ws.getD (i + 1) 0 ∧ ws.getD i 0 = ws.getD (i + 2) 0)) →
      (dtmf_run dsp_dtmf_goertzel_init ws).digits = []) :=
  ⟨dtmf_emit_three_aux, dtmf_no_triple_no_digit⟩

/-- Witness for C9: the decision sequence 5 5 7 7 0 5 5 -- two-frame bursts
only -- emits no digit. -/
theorem dtmf_three_frame_hysteresis_witness :
    (dtmf_run dsp_dtmf_goertzel_init [5, 5, 7, 7, 0, 5, 5]).digits = [] :=
  dtmf_three_frame_hysteresis.2 [5, 5, 7, 7, 0, 5, 5] (by decide)
